import Mathlib

/-!
# Void Engine — verification of the snapshot log and the bootstrap rendezvous

Shallow embedding of the two core components of the repository:

* `src/core/memory.rs` — `MemoryField`, the bounded in-memory snapshot log
  mirrored to a durable newline-delimited JSON file, with count-triggered
  rotation and windowed `average` / `trend` analytics.
* `src/substrate/mod.rs` — the asynchronous GPU bootstrap: a oneshot channel
  armed at startup (`start_gpu_initialization`) and drained by a per-tick
  poller (`poll_gpu_initialization`).

JSON numbers are modelled as rationals (the Rust code computes in `f32`;
the exactness of the arithmetic is abstracted, the selection of records and
the shape of the computation are embedded faithfully).  File-system effects
are modelled by explicit state carried alongside the in-memory fields, and
each fallible I/O primitive takes its outcome as an input.
-/

namespace VoidEngine

/-- JSON values as produced by `serde_json` (numbers as exact rationals). -/
inductive JVal where
  | jnull
  | jbool (b : Bool)
  | jnum (q : ℚ)
  | jstr (s : String)
  | jarr (elems : List JVal)
  | jobj (fields : List (String × JVal))

/-- `Value::get(key)` on a JSON object: lookup of the field, `None` on
non-objects. -/
def JVal.get : JVal → String → Option JVal
  | JVal.jobj fields, key => fields.lookup key
  | _, _ => none

/-- `Value::as_f64()`: the numeric payload of a number, `None` otherwise. -/
def JVal.as_f64 : JVal → Option ℚ
  | JVal.jnum q => some q
  | _ => none

/-- Events reported (logged) by the memory subsystem; they model the
`error!` / `info!` side channels of `memory.rs`. -/
inductive MemEvent where
  | appendFailed
  | flushFailed
  | flushed
  | rotateFailed
  | rotated (archive : String)
  | parseFailed
deriving DecidableEq

/-- Where, if anywhere, `rotate_internal` fails:
`earlyFail` = `create_dir_all` or the rename fails (before the buffer is
cleared); `lateFail` = the final `File::create` of the fresh base file fails
(after the rename and the clear); `ok` = no failure. -/
inductive RotateOutcome where
  | ok
  | earlyFail
  | lateFail
deriving DecidableEq

/-- The I/O outcomes granted to one `record` call: whether the per-line
append succeeds, and how `rotate_internal` fares if rotation triggers. -/
structure IoPlan where
  appendOk : Bool
  rotateOutcome : RotateOutcome
deriving DecidableEq

/-- All I/O succeeds. -/
def ioAllOk : IoPlan := ⟨true, RotateOutcome.ok⟩

/-- Every rotation attempt fails before clearing the buffer. -/
def ioRotateFails : IoPlan := ⟨true, RotateOutcome.earlyFail⟩

/-- Every rotation attempt fails, but only at the final recreation of the
base file — after the rename and after the buffer has been cleared. -/
def ioRotateLateFails : IoPlan := ⟨true, RotateOutcome.lateFail⟩

/-- The state of `MemoryField` together with the file-system state it acts
on.  `history`, `max_snapshots`, `base_path` and `writes_since_rotation`
are the struct fields of `MemoryField`; `baseFile` is the content of the
live backing file (`none` = the file does not exist, lines as parsed
values); `archives` are the rotated archive files; `events` is the report
log. -/
structure MemoryField where
  history : List JVal
  max_snapshots : Nat
  base_path : String
  writes_since_rotation : Nat
  baseFile : Option (List JVal)
  archives : List (String × List JVal)
  events : List MemEvent

/-- `MemoryField::new(max_snapshots)`: empty history, capacity clamped to at
least 1, default path, counter 0.  The backing file is taken absent. -/
def MemoryField.new (max_snapshots : Nat) : MemoryField :=
  { history := []
    max_snapshots := max max_snapshots 1
    base_path := "void_state.json"
    writes_since_rotation := 0
    baseFile := none
    archives := []
    events := [] }

/-- `MemoryField::len()`. -/
def MemoryField.len (m : MemoryField) : Nat :=
  m.history.length

/-- `MemoryField::latest()`. -/
def MemoryField.latest (m : MemoryField) : Option JVal :=
  m.history.getLast?

/-- `MemoryField::append_snapshot`: open the base file in create/append mode
and write one serialized line; on failure only an error is reported. -/
def MemoryField.append_snapshot (m : MemoryField) (v : JVal) (ok : Bool) :
    MemoryField :=
  if ok then
    { m with baseFile := some ((m.baseFile.getD []) ++ [v]) }
  else
    { m with events := MemEvent.appendFailed :: m.events }

/-- `file_stem` of a path (the part of the last component before its last
dot), as used for the generated archive name. -/
def fileStem (p : String) : String :=
  let parts := p.splitOn "."
  if parts.length ≥ 2 then String.intercalate "." parts.dropLast else p

/-- The archive name generated inside `record`:
`format!("\x7b\x7d-\x7b\x7d.json", stem, timestamp)`. -/
def archiveName (basePath : String) (timestamp : Nat) : String :=
  fileStem basePath ++ "-" ++ toString timestamp ++ ".json"

/-- `MemoryField::rotate_internal(path)`: create the archive's parent
directories, rename the base file onto the archive if it exists, clear the
in-memory history, recreate an empty base file.  Returns the updated state
and whether it succeeded; on `earlyFail` nothing has happened yet, on
`lateFail` the rename and the clear have happened but the fresh base file
was not created. -/
def MemoryField.rotate_internal (m : MemoryField) (path : String)
    (outcome : RotateOutcome) : MemoryField × Bool :=
  match outcome with
  | RotateOutcome.earlyFail => (m, false)
  | RotateOutcome.lateFail =>
      let m1 :=
        match m.baseFile with
        | some content =>
            { m with archives := (path, content) :: m.archives, baseFile := none }
        | none => m
      ({ m1 with history := [] }, false)
  | RotateOutcome.ok =>
      let m1 :=
        match m.baseFile with
        | some content =>
            { m with archives := (path, content) :: m.archives, baseFile := none }
        | none => m
      ({ m1 with history := [], baseFile := some [] }, true)

/-- `MemoryField::rotate(path)`: run `rotate_internal`; on failure report and
leave `writes_since_rotation` untouched, on success report and reset the
counter to 0. -/
def MemoryField.rotate (m : MemoryField) (path : String)
    (outcome : RotateOutcome) : MemoryField :=
  let r := m.rotate_internal path outcome
  if r.2 then
    { r.1 with
        writes_since_rotation := 0
        events := MemEvent.rotated path :: r.1.events }
  else
    { r.1 with events := MemEvent.rotateFailed :: r.1.events }

/-- `MemoryField::record(snapshot)`: push to history, evict the oldest entry
if over capacity, append one line to the base file, bump the counter, and
rotate when the counter reaches the capacity.  `now` is the Unix timestamp
used for the generated archive name; `io` carries the I/O outcomes. -/
def MemoryField.record (m : MemoryField) (now : Nat) (v : JVal)
    (io : IoPlan) : MemoryField :=
  let m1 := { m with history := m.history ++ [v] }
  let m2 :=
    if m1.history.length > m1.max_snapshots then
      { m1 with history := m1.history.drop 1 }
    else m1
  let m3 := m2.append_snapshot v io.appendOk
  let m4 := { m3 with writes_since_rotation := m3.writes_since_rotation + 1 }
  if m4.writes_since_rotation ≥ m4.max_snapshots then
    m4.rotate (archiveName m4.base_path now) io.rotateOutcome
  else m4

/-- `MemoryField::flush()`: rewrite the base file from scratch with the full
in-memory history (truncate-then-write-all); failures are only reported. -/
def MemoryField.flush (m : MemoryField) (ok : Bool) : MemoryField :=
  if ok then
    { m with baseFile := some m.history, events := MemEvent.flushed :: m.events }
  else
    { m with events := MemEvent.flushFailed :: m.events }

/-- One line of the backing file as seen by `from_file`: a line holding
well-formed JSON, a non-empty line `serde_json` rejects, a blank line, or a
line the reader cannot even yield (`io::Error`). -/
inductive FileLine where
  | jsonLine (v : JVal)
  | badLine
  | blank
  | readErr

/-- The loop of `from_file`: accumulate parsed values in file order, report
and skip malformed lines, skip blank lines, abort with `none` on a read
error. -/
def loadLines : List FileLine → Option (List JVal × List MemEvent)
  | [] => some ([], [])
  | FileLine.jsonLine v :: rest =>
      (loadLines rest).map fun he => (v :: he.1, he.2)
  | FileLine.badLine :: rest =>
      (loadLines rest).map fun he => (he.1, MemEvent.parseFailed :: he.2)
  | FileLine.blank :: rest => loadLines rest
  | FileLine.readErr :: _ => none

/-- `MemoryField::from_file(path)`: `none` if the file cannot be opened or a
line cannot be read; otherwise all well-formed lines in file order, capacity
fixed at 512, and `writes_since_rotation = min(loaded, 512)`.  `file` is the
content of the file at `path` (`none` = cannot be opened). -/
def MemoryField.from_file (path : String) (file : Option (List FileLine)) :
    Option MemoryField :=
  (file.bind loadLines).map fun he =>
    { history := he.1
      max_snapshots := 512
      base_path := path
      writes_since_rotation := min he.1.length 512
      baseFile := some he.1
      archives := []
      events := he.2 }

/-- The body of `average`'s loop: add the numeric value at `key` to the
running sum and bump the count, or leave the accumulator alone when the
snapshot has none. -/
def avgStep (key : String) (acc : ℚ × ℚ) (snapshot : JVal) : ℚ × ℚ :=
  match (snapshot.get key).bind JVal.as_f64 with
  | some num => (acc.1 + num, acc.2 + 1)
  | none => acc

/-- `MemoryField::average(key, window)`: clamp the window to at least 1,
then fold sum and count over the last `window` snapshots, counting only
those with a numeric value at `key`; `None` when the count stays 0. -/
def MemoryField.average (m : MemoryField) (key : String) (window : Nat) :
    Option ℚ :=
  let window := max window 1
  let start := m.history.length - window
  let p := (m.history.drop start).foldl (avgStep key) ((0 : ℚ), (0 : ℚ))
  if p.2 > 0 then some (p.1 / p.2) else none

/-- Combine the two endpoint values of `trend`: their difference when both
are present (the `?` early returns of the Rust code), `None` otherwise. -/
def endpointDiff (first last : Option ℚ) : Option ℚ :=
  match first, last with
  | some f, some l => some (l - f)
  | _, _ => none

/-- `MemoryField::trend(key, window)`: `None` when `window < 2` or fewer
than 2 snapshots; otherwise the difference between the values at `key` of
the last snapshot and of the first snapshot of the trailing window of size
`min window len`, `None` if either endpoint lacks a numeric value. -/
def MemoryField.trend (m : MemoryField) (key : String) (window : Nat) :
    Option ℚ :=
  if window < 2 ∨ m.history.length < 2 then none
  else
    let window := min window m.history.length
    let start := m.history.length - window
    endpointDiff ((m.history[start]?).bind fun s => (s.get key).bind JVal.as_f64)
      (m.history.getLast?.bind fun s => (s.get key).bind JVal.as_f64)

/-- Record a whole sequence of snapshots, left to right, with the same
timestamp and I/O outcomes at every step. -/
def MemoryField.recordAll (m : MemoryField) (now : Nat) (vs : List JVal)
    (io : IoPlan) : MemoryField :=
  vs.foldl (fun acc v => acc.record now v io) m

/-- `GpuContext` (`src/substrate/mod.rs`): the adapter name is kept; the
device, queue and surface handles are opaque FFI values, modelled by an
abstract identifier. -/
structure GpuContext where
  adapter_name : String
  handle : Nat
deriving DecidableEq

/-- `GpuInitError` exactly as declared in `src/substrate/mod.rs`. -/
inductive GpuInitError where
  | NoAdapter
  | RequestDevice (reason : String)
deriving DecidableEq

/-- The observable state of the oneshot channel held by `PendingGpuInit`:
still pending, a result sent and not yet taken, or the sender dropped
without sending (`try_recv` then yields its closed error). -/
inductive ChannelState where
  | pending
  | sent (r : Except GpuInitError GpuContext)
  | closed

/-- Reports emitted by the poller (the `error!` calls of
`poll_gpu_initialization`). -/
inductive PollReport where
  | initFailed (e : GpuInitError)
  | channelClosed
deriving DecidableEq

/-- Whether a poll report carries a `GpuInitError` value. -/
def PollReport.carriesInitError : PollReport → Bool
  | PollReport.initFailed _ => true
  | PollReport.channelClosed => false

/-- The substrate-relevant slice of the ECS world: the `PendingGpuInit`
resource (the cell slot, holding the receiver when present), the installed
`GpuContext` resource, and the report log. -/
structure SubstrateState where
  cellSlot : Option ChannelState
  gpuContext : Option GpuContext
  reports : List PollReport

/-- `start_gpu_initialization`: spawn the background job and insert a fresh
`PendingGpuInit` resource whose channel is still pending. -/
def start_gpu_initialization (s : SubstrateState) : SubstrateState :=
  { s with cellSlot := some ChannelState.pending }

/-- The background job completing: `sender.send(result)` moves a pending
channel to `sent`; on an already resolved or absent channel the send is
dropped. -/
def deliver (s : SubstrateState) (r : Except GpuInitError GpuContext) :
    SubstrateState :=
  match s.cellSlot with
  | some ChannelState.pending => { s with cellSlot := some (ChannelState.sent r) }
  | _ => s

/-- The background worker dying: the sender is dropped without sending, so a
pending channel becomes closed. -/
def dropSender (s : SubstrateState) : SubstrateState :=
  match s.cellSlot with
  | some ChannelState.pending => { s with cellSlot := some ChannelState.closed }
  | _ => s

/-- The numeric values at `key` of the snapshots of `l` that carry one. -/
def valsOf (key : String) (l : List JVal) : List ℚ :=
  l.filterMap fun snapshot => (snapshot.get key).bind JVal.as_f64

/-- The numeric values at `key` inside the trailing window of `average`:
the last `min (max window 1) len` snapshots. -/
def windowVals (m : MemoryField) (key : String) (window : Nat) : List ℚ :=
  valsOf key (m.history.drop (m.history.length - max window 1))

/-- The spec's wording of `average` (§4.3): the arithmetic mean of the
values of the field over the records of the window that carry it, `None`
exactly when none does. -/
def averageSpec (m : MemoryField) (key : String) (window : Nat) : Option ℚ :=
  if windowVals m key window = [] then none
  else some ((windowVals m key window).sum / ((windowVals m key window).length : ℚ))

/-- The spec's wording of `trend` (§4.3): `None` for `window < 2` or
`len < 2`; otherwise the value at the last record of the trailing window of
size `min window len` minus the value at its first record, `None` when an
endpoint lacks the field. -/
def trendSpec (m : MemoryField) (key : String) (window : Nat) : Option ℚ :=
  if window < 2 ∨ m.history.length < 2 then none
  else
    let win := m.history.drop (m.history.length - min window m.history.length)
    endpointDiff (win.head?.bind fun s => (s.get key).bind JVal.as_f64)
      (win.getLast?.bind fun s => (s.get key).bind JVal.as_f64)

/-- Whether a file line is one the reader fails to yield. -/
def FileLine.isReadErr : FileLine → Bool
  | FileLine.readErr => true
  | _ => false

/-- The well-formed JSON lines of a file, in file order. -/
def parsedLines (lines : List FileLine) : List JVal :=
  lines.filterMap fun l =>
    match l with
    | FileLine.jsonLine v => some v
    | _ => none

/-- The per-line parse-failure reports `from_file` emits, in file order. -/
def parseReports (lines : List FileLine) : List MemEvent :=
  lines.filterMap fun l =>
    match l with
    | FileLine.badLine => some MemEvent.parseFailed
    | _ => none

/-- The pure in-memory step of `record`: push, then drop the oldest entry
when over capacity. -/
def evictStep (M : Nat) (h : List JVal) (v : JVal) : List JVal :=
  let h1 := h ++ [v]
  if h1.length > M then h1.drop 1 else h1

/-- One public mutating operation of the log. -/
inductive LogOp where
  | recOp (now : Nat) (v : JVal) (io : IoPlan)
  | flushOp (ok : Bool)
  | rotOp (path : String) (outcome : RotateOutcome)

/-- Apply one operation. -/
def applyOp (m : MemoryField) : LogOp → MemoryField
  | LogOp.recOp now v io => m.record now v io
  | LogOp.flushOp ok => m.flush ok
  | LogOp.rotOp path outcome => m.rotate path outcome

/-- Apply a sequence of operations, left to right. -/
def applyOps (m : MemoryField) (ops : List LogOp) : MemoryField :=
  ops.foldl applyOp m

/-- A snapshot carrying the single numeric field `x`. -/
def sampleX (q : ℚ) : JVal := JVal.jobj [("x", JVal.jnum q)]

/-- A snapshot carrying the single numeric field `a`. -/
def sampleA (q : ℚ) : JVal := JVal.jobj [("a", JVal.jnum q)]

/-- The file of the spec's Scenario C: a well-formed line, a malformed one,
a well-formed one. -/
def scenarioC : List FileLine :=
  [FileLine.jsonLine (sampleA 1), FileLine.badLine, FileLine.jsonLine (sampleA 2)]

/-- A backing file holding 513 well-formed lines — one more than the fixed
capacity `from_file` assigns. -/
def bigFile : List FileLine :=
  List.replicate 513 (FileLine.jsonLine JVal.jnull)

/-- The log `from_file` produces from an empty readable file at path `p`. -/
def emptyLoaded : MemoryField :=
  { history := []
    max_snapshots := 512
    base_path := "p"
    writes_since_rotation := 0
    baseFile := some []
    archives := []
    events := [] }

/-- `poll_gpu_initialization`: no-op without the `PendingGpuInit` resource;
otherwise `try_recv` — on a pending channel nothing happens, on a delivered
`Ok` the context is installed and the resource removed, on a delivered
`Err` the failure is reported and the resource removed, and on a closed
channel the closed-channel error is reported and the resource removed. -/
def poll_gpu_initialization (s : SubstrateState) : SubstrateState :=
  match s.cellSlot with
  | none => s
  | some ChannelState.pending => s
  | some (ChannelState.sent (Except.ok context)) =>
      { s with gpuContext := some context, cellSlot := none }
  | some (ChannelState.sent (Except.error e)) =>
      { s with reports := PollReport.initFailed e :: s.reports, cellSlot := none }
  | some ChannelState.closed =>
      { s with reports := PollReport.channelClosed :: s.reports, cellSlot := none }

/-- A world whose pending cell's sender has been dropped without a value
and where nothing has been installed or reported yet. -/
def closedCell : SubstrateState :=
  { cellSlot := some ChannelState.closed, gpuContext := none, reports := [] }

/-- C1: for the rendezvous cell armed at bootstrap, a poll before the
background job completes changes nothing and delivers nothing; once the
result is delivered, the first poll installs it (or reports the failure)
and retires the cell, and every later poll is a no-op — never a second
delivery, re-install or re-report. -/
theorem claim_C1_rendezvous_delivery (s : SubstrateState) (ctx : GpuContext)
    (e : GpuInitError) :
    poll_gpu_initialization (start_gpu_initialization s) = start_gpu_initialization s
    ∧ (poll_gpu_initialization (deliver (start_gpu_initialization s) (Except.ok ctx))).gpuContext
        = some ctx
    ∧ (poll_gpu_initialization (deliver (start_gpu_initialization s) (Except.ok ctx))).cellSlot
        = none
    ∧ (poll_gpu_initialization (deliver (start_gpu_initialization s) (Except.ok ctx))).reports
        = s.reports
    ∧ poll_gpu_initialization
          (poll_gpu_initialization (deliver (start_gpu_initialization s) (Except.ok ctx)))
        = poll_gpu_initialization (deliver (start_gpu_initialization s) (Except.ok ctx))
    ∧ (poll_gpu_initialization (deliver (start_gpu_initialization s) (Except.error e))).reports
        = PollReport.initFailed e :: s.reports
    ∧ (poll_gpu_initialization (deliver (start_gpu_initialization s) (Except.error e))).cellSlot
        = none
    ∧ poll_gpu_initialization
          (poll_gpu_initialization (deliver (start_gpu_initialization s) (Except.error e)))
        = poll_gpu_initialization (deliver (start_gpu_initialization s) (Except.error e)) :=
  ⟨rfl, rfl, rfl, rfl, rfl, rfl, rfl, rfl⟩

/-- C7, counterexample: when the sending side is gone without a value, the
poller's report is the channel-closed report, which carries no value of
`GpuInitError` at all — the code's `GpuInitError` has no `DeliveryBroken`
kind, so the delivery-broken condition is not reported as an `InitError`
with a dedicated kind, contrary to the claim's taxonomy. -/
theorem claim_C7_counterexample :
    (poll_gpu_initialization closedCell).reports = [PollReport.channelClosed]
    ∧ (poll_gpu_initialization closedCell).cellSlot = none
    ∧ ((poll_gpu_initialization closedCell).reports.all
        fun r => !r.carriesInitError) = true :=
  ⟨rfl, rfl, rfl⟩

/-- C7, amended: when the sender is destroyed without producing a value,
polling reports a distinguished channel-closed error — not a `GpuInitError`
value, that taxonomy having only `NoAdapter` and `RequestDevice` — and
clears the cell slot; it does not hang and later polls are no-ops. -/
theorem claim_C7_amended_channel_closed (s : SubstrateState) :
    (poll_gpu_initialization (dropSender (start_gpu_initialization s))).reports
        = PollReport.channelClosed :: s.reports
    ∧ (poll_gpu_initialization (dropSender (start_gpu_initialization s))).cellSlot = none
    ∧ PollReport.channelClosed.carriesInitError = false
    ∧ poll_gpu_initialization
          (poll_gpu_initialization (dropSender (start_gpu_initialization s)))
        = poll_gpu_initialization (dropSender (start_gpu_initialization s)) :=
  ⟨rfl, rfl, rfl, rfl⟩

/-- The sum-and-count fold of `average` computes the sum and the length of
the numeric values the window carries. -/
theorem foldl_avgStep (key : String) (l : List JVal) (s c : ℚ) :
    l.foldl (avgStep key) (s, c)
      = (s + (valsOf key l).sum, c + ((valsOf key l).length : ℚ)) := by
  induction l generalizing s c with
  | nil => simp [valsOf]
  | cons hd tl ih =>
    cases hf : (hd.get key).bind JVal.as_f64 with
    | none =>
        simp [List.foldl_cons, avgStep, hf, ih, valsOf, List.filterMap_cons]
    | some q =>
        simp only [List.foldl_cons, avgStep, hf, ih, valsOf, List.filterMap_cons,
          List.sum_cons, List.length_cons, Prod.mk.injEq]
        constructor
        · ring
        · push_cast
          ring

/-- C4: `average(f, w)` is the arithmetic mean of the values of `f` over
the last `min (max w 1) len` records restricted to those carrying a numeric
value for `f`, and is `None` exactly when no record of that window carries
one; in particular recording `x:2` then `x:4` gives `average "x" 2 = 3`. -/
theorem claim_C4_average (m : MemoryField) (key : String) (window : Nat) :
    m.average key window = averageSpec m key window
    ∧ (m.average key window = none ↔ windowVals m key window = [])
    ∧ (((MemoryField.new 512).record 0 (sampleX 2) ioAllOk).record 0
        (sampleX 4) ioAllOk).average "x" 2 = some 3 := by
  have hgen : ∀ (m' : MemoryField) (k : String) (w : Nat),
      m'.average k w = averageSpec m' k w := by
    intro m' k w
    unfold MemoryField.average averageSpec windowVals
    simp only [foldl_avgStep]
    by_cases h : valsOf k (m'.history.drop (m'.history.length - max w 1)) = []
    · simp [h]
    · have hpos : (0 : ℚ)
          < ((valsOf k (m'.history.drop (m'.history.length - max w 1))).length : ℚ) := by
        exact_mod_cast List.length_pos.mpr h
      simp [h, hpos]
  refine ⟨hgen m key window, ?_, ?_⟩
  · rw [hgen m key window]
    unfold averageSpec
    by_cases h : windowVals m key window = []
    · simp [h]
    · simp [h]
  · rw [hgen]
    have hconc : windowVals (((MemoryField.new 512).record 0 (sampleX 2) ioAllOk).record 0
        (sampleX 4) ioAllOk) "x" 2 = [2, 4] := rfl
    unfold averageSpec
    rw [hconc, if_neg (by simp : ¬([2, 4] : List ℚ) = [])]
    norm_num

/-- C5: `trend(f, w)` is `None` when `w < 2` or `len < 2` and otherwise the
difference between the values of `f` at the last and at the first record of
the trailing window of size `min w len` (`None` if either endpoint lacks a
numeric value); with history `x:1, x:5, x:9`, `trend "x" 3 = 8`. -/
theorem claim_C5_trend (m : MemoryField) (key : String) (window : Nat) :
    m.trend key window = trendSpec m key window
    ∧ ((MemoryField.new 512).recordAll 0 [sampleX 1, sampleX 5, sampleX 9]
        ioAllOk).trend "x" 3 = some 8 := by
  constructor
  · unfold MemoryField.trend trendSpec
    by_cases h : window < 2 ∨ m.history.length < 2
    · simp [h]
    · rw [if_neg h, if_neg h]
      have e1 : (m.history.drop
            (m.history.length - min window m.history.length)).head?
          = m.history[m.history.length - min window m.history.length]? := by
        rw [List.head?_eq_getElem?, List.getElem?_drop, Nat.add_zero]
      have e2 : (m.history.drop
            (m.history.length - min window m.history.length)).getLast?
          = m.history.getLast? := by
        rw [List.getLast?_eq_getElem?, List.getLast?_eq_getElem?,
          List.getElem?_drop, List.length_drop]
        congr 1
        omega
      simp only [e1, e2]
  · have h9 : (((MemoryField.new 512).recordAll 0 [sampleX 1, sampleX 5, sampleX 9]
        ioAllOk)).history = [sampleX 1, sampleX 5, sampleX 9] := rfl
    unfold MemoryField.trend
    rw [h9]
    norm_num [endpointDiff, sampleX, JVal.get, JVal.as_f64, List.lookup]

/-- When no line suffers a read error, the loading loop returns every
well-formed line in file order together with one parse report per
malformed line. -/
theorem loadLines_of_no_readErr (lines : List FileLine)
    (h : (lines.all fun l => !l.isReadErr) = true) :
    loadLines lines = some (parsedLines lines, parseReports lines) := by
  induction lines with
  | nil => simp [loadLines, parsedLines, parseReports]
  | cons l rest ih =>
    cases l with
    | jsonLine v =>
        simp only [List.all_cons, Bool.and_eq_true] at h
        simp [loadLines, parsedLines, parseReports, List.filterMap_cons, ih h.2]
    | badLine =>
        simp only [List.all_cons, Bool.and_eq_true] at h
        simp [loadLines, parsedLines, parseReports, List.filterMap_cons, ih h.2]
    | blank =>
        simp only [List.all_cons, Bool.and_eq_true] at h
        simp [loadLines, parsedLines, parseReports, List.filterMap_cons, ih h.2]
    | readErr => simp [FileLine.isReadErr] at h

/-- The loading loop aborts exactly when some line suffers a read error. -/
theorem loadLines_eq_none_iff (lines : List FileLine) :
    loadLines lines = none ↔ (lines.any FileLine.isReadErr) = true := by
  induction lines with
  | nil => simp [loadLines]
  | cons l rest ih =>
    cases l with
    | jsonLine v => simp [loadLines, FileLine.isReadErr, ih]
    | badLine => simp [loadLines, FileLine.isReadErr, ih]
    | blank => simp [loadLines, FileLine.isReadErr, ih]
    | readErr => simp [loadLines, FileLine.isReadErr]

/-- C6: `from_file` is `None` when the file cannot be opened or some line
cannot be read, and never because a line merely fails to parse: with no
read error it loads exactly the well-formed lines in file order, reports
each malformed line, and sets `writes_since_rotation` to
`min loaded 512`; Scenario C loads exactly `a=1` and `a=2`. -/
theorem claim_C6_from_file :
    (∀ path : String, MemoryField.from_file path none = none)
    ∧ (∀ (path : String) (lines : List FileLine),
        (lines.all fun l => !l.isReadErr) = true →
        MemoryField.from_file path (some lines) = some
          { history := parsedLines lines
            max_snapshots := 512
            base_path := path
            writes_since_rotation := min (parsedLines lines).length 512
            baseFile := some (parsedLines lines)
            archives := []
            events := parseReports lines })
    ∧ (∀ (path : String) (lines : List FileLine),
        (lines.any FileLine.isReadErr) = true →
        MemoryField.from_file path (some lines) = none)
    ∧ MemoryField.from_file "void_state.json" (some scenarioC) = some
        { history := [sampleA 1, sampleA 2]
          max_snapshots := 512
          base_path := "void_state.json"
          writes_since_rotation := 2
          baseFile := some [sampleA 1, sampleA 2]
          archives := []
          events := [MemEvent.parseFailed] } := by
  refine ⟨fun path => rfl, ?_, ?_, rfl⟩
  · intro path lines h
    simp [MemoryField.from_file, loadLines_of_no_readErr lines h]
  · intro path lines h
    simp [MemoryField.from_file, loadLines_eq_none_iff lines |>.mpr h]

/-- Witness for C6: a one-good-line file loads it; a file whose line cannot
be read yields `None`. -/
theorem claim_C6_witness :
    MemoryField.from_file "p" (some [FileLine.jsonLine JVal.jnull]) = some
      { history := parsedLines [FileLine.jsonLine JVal.jnull]
        max_snapshots := 512
        base_path := "p"
        writes_since_rotation := min (parsedLines [FileLine.jsonLine JVal.jnull]).length 512
        baseFile := some (parsedLines [FileLine.jsonLine JVal.jnull])
        archives := []
        events := parseReports [FileLine.jsonLine JVal.jnull] }
    ∧ MemoryField.from_file "p" (some [FileLine.readErr]) = none :=
  ⟨claim_C6_from_file.2.1 "p" [FileLine.jsonLine JVal.jnull] rfl,
   claim_C6_from_file.2.2.1 "p" [FileLine.readErr] rfl⟩

/-- When rotation I/O fails before clearing, `record` performs exactly the
push-and-evict step on the in-memory history and keeps the capacity. -/
theorem record_rotateFails_history (m : MemoryField) (now : Nat) (v : JVal) :
    ((m.record now v ioRotateFails).history = evictStep m.max_snapshots m.history v)
    ∧ (m.record now v ioRotateFails).max_snapshots = m.max_snapshots := by
  by_cases h1 : m.max_snapshots < m.history.length + 1 <;>
    by_cases h2 : m.max_snapshots ≤ m.writes_since_rotation + 1 <;>
      simp [MemoryField.record, MemoryField.rotate, MemoryField.rotate_internal,
        MemoryField.append_snapshot, evictStep, ioRotateFails, h1, h2]

/-- Over a whole sequence, the rotation-failing path folds the
push-and-evict step. -/
theorem recordAll_rotateFails (now : Nat) : ∀ (vs : List JVal) (m : MemoryField),
    ((m.recordAll now vs ioRotateFails).history
        = vs.foldl (evictStep m.max_snapshots) m.history)
    ∧ (m.recordAll now vs ioRotateFails).max_snapshots = m.max_snapshots := by
  intro vs
  induction vs with
  | nil => intro m; exact ⟨rfl, rfl⟩
  | cons v vs' ih =>
      intro m
      have h1 := record_rotateFails_history m now v
      have h2 := ih (m.record now v ioRotateFails)
      have hrw : m.recordAll now (v :: vs') ioRotateFails
          = (m.record now v ioRotateFails).recordAll now vs' ioRotateFails := rfl
      constructor
      · rw [hrw, h2.1, h1.2, h1.1]
        simp [List.foldl_cons]
      · rw [hrw, h2.2, h1.2]

/-- Folding the push-and-evict step retains exactly the last `M` elements
of the whole stream. -/
theorem foldl_evictStep (M : Nat) : ∀ (vs h : List JVal), h.length ≤ M →
    vs.foldl (evictStep M) h = (h ++ vs).drop (h.length + vs.length - M) := by
  intro vs
  induction vs with
  | nil =>
      intro h hle
      have h0 : h.length - M = 0 := by
        omega
      simp [h0]
  | cons v vs' ih =>
      intro h hle
      simp only [List.foldl_cons]
      by_cases hfull : h.length + 1 > M
      · have hlen : h.length = M := by omega
        have hstep : evictStep M h v = (h ++ [v]).drop 1 := by
          unfold evictStep
          rw [if_pos (by simp; omega)]
        rw [hstep, ih _ (by simp; omega)]
        have hd1 : ((h ++ [v]).drop 1).length = M := by
          simp
          omega
        rw [hd1]
        rw [← List.drop_append_of_le_length (by simp : 1 ≤ (h ++ [v]).length)]
        rw [List.drop_drop]
        have ha : (h ++ [v]) ++ vs' = h ++ (v :: vs') := by
          simp
        rw [ha]
        congr 1
        simp
        omega
      · have hstep : evictStep M h v = h ++ [v] := by
          unfold evictStep
          rw [if_neg (by simp; omega)]
        rw [hstep, ih _ (by simp; omega)]
        have ha : (h ++ [v]) ++ vs' = h ++ (v :: vs') := by
          simp
        rw [ha]
        congr 1
        simp
        omega

/-- A `record` with working I/O that does not reach the rotation threshold:
push, append one line, bump the counter. -/
theorem record_allOk_no_rotate (m : MemoryField) (now : Nat) (v : JVal)
    (hlt : m.history.length + 1 ≤ m.max_snapshots)
    (hc : m.writes_since_rotation + 1 < m.max_snapshots) :
    m.record now v ioAllOk
      = { m with
          history := m.history ++ [v]
          writes_since_rotation := m.writes_since_rotation + 1
          baseFile := some (m.baseFile.getD [] ++ [v]) } := by
  simp [MemoryField.record, MemoryField.append_snapshot, ioAllOk,
    if_neg (by omega : ¬ m.max_snapshots < m.history.length + 1),
    if_neg (by omega : ¬ m.max_snapshots ≤ m.writes_since_rotation + 1)]

/-- A `record` with working I/O that reaches the rotation threshold: after
the push and the append, the base file (which now ends in the new line) is
archived under the generated name, the buffer and the file are emptied and
the counter is reset. -/
theorem record_allOk_rotates (m : MemoryField) (now : Nat) (v : JVal)
    (hlt : m.history.length + 1 ≤ m.max_snapshots)
    (hc : m.writes_since_rotation + 1 ≥ m.max_snapshots) :
    m.record now v ioAllOk
      = { m with
          history := []
          writes_since_rotation := 0
          baseFile := some []
          archives := (archiveName m.base_path now, m.baseFile.getD [] ++ [v])
              :: m.archives
          events := MemEvent.rotated (archiveName m.base_path now) :: m.events } := by
  simp [MemoryField.record, MemoryField.rotate, MemoryField.rotate_internal,
    MemoryField.append_snapshot, ioAllOk,
    if_neg (by omega : ¬ m.max_snapshots < m.history.length + 1),
    if_pos (by omega : m.max_snapshots ≤ m.writes_since_rotation + 1)]

/-- With all I/O succeeding and the counter in step with the buffer, a run
of `record` calls keeps the last `T mod capacity` snapshots (`T` the total
number of pushes) — every capacity-th call rotates and clears. -/
theorem recordAll_allOk_mod (now : Nat) : ∀ (vs : List JVal) (m : MemoryField),
    m.writes_since_rotation = m.history.length →
    m.history.length < m.max_snapshots →
    ((m.recordAll now vs ioAllOk).history
        = (m.history ++ vs).drop
            (m.history.length + vs.length
              - (m.history.length + vs.length) % m.max_snapshots))
    ∧ (m.recordAll now vs ioAllOk).writes_since_rotation
        = (m.history.length + vs.length) % m.max_snapshots
    ∧ (m.recordAll now vs ioAllOk).max_snapshots = m.max_snapshots := by
  intro vs
  induction vs with
  | nil =>
      intro m hc hlt
      refine ⟨?_, ?_, rfl⟩
      · simp [MemoryField.recordAll, Nat.mod_eq_of_lt hlt]
      · simp [MemoryField.recordAll, Nat.mod_eq_of_lt hlt, hc]
  | cons v vs' ih =>
      intro m hc hlt
      have hrw : m.recordAll now (v :: vs') ioAllOk
          = (m.record now v ioAllOk).recordAll now vs' ioAllOk := rfl
      by_cases hfull : m.writes_since_rotation + 1 ≥ m.max_snapshots
      · have hM : m.history.length + 1 = m.max_snapshots := by omega
        rw [hrw, record_allOk_rotates m now v (by omega) hfull]
        obtain ⟨ih1, ih2, ih3⟩ := ih
          { m with
            history := []
            writes_since_rotation := 0
            baseFile := some []
            archives := (archiveName m.base_path now, m.baseFile.getD [] ++ [v])
                :: m.archives
            events := MemEvent.rotated (archiveName m.base_path now) :: m.events }
          rfl (by simpa using by omega)
        refine ⟨?_, ?_, ih3⟩
        · rw [ih1]
          have ha : m.history ++ (v :: vs') = (m.history ++ [v]) ++ vs' := by
            simp
          rw [ha]
          have hlen1 : (m.history ++ [v]).length = m.max_snapshots := by
            simp
            omega
          have hamt : m.history.length + (v :: vs').length
                - (m.history.length + (v :: vs').length) % m.max_snapshots
              = (m.history ++ [v]).length
                + (vs'.length - vs'.length % m.max_snapshots) := by
            rw [hlen1]
            have h1 : m.history.length + (v :: vs').length
                = m.max_snapshots + vs'.length := by
              simp
              omega
            rw [h1, Nat.add_mod_left]
            have := Nat.mod_le vs'.length m.max_snapshots
            omega
          rw [hamt, List.drop_append]
          simp
        · rw [ih2]
          simp only [List.length_cons]
          have h1 : m.history.length + (vs'.length + 1)
              = m.max_snapshots + vs'.length := by omega
          rw [h1, Nat.add_mod_left]
          simp
      · rw [hrw, record_allOk_no_rotate m now v (by omega) (by omega)]
        obtain ⟨ih1, ih2, ih3⟩ := ih
          { m with
            history := m.history ++ [v]
            writes_since_rotation := m.writes_since_rotation + 1
            baseFile := some (m.baseFile.getD [] ++ [v]) }
          (by simp [hc]) (by simp; omega)
        refine ⟨?_, ?_, ih3⟩
        · rw [ih1]
          have ha : (m.history ++ [v]) ++ vs' = m.history ++ (v :: vs') := by
            simp
          have hamt : (m.history ++ [v]).length + vs'.length
              = m.history.length + (v :: vs').length := by
            simp
            omega
          rw [ha, hamt]
        · rw [ih2]
          congr 1
          simp
          omega

/-- C2, counterexample: on a log of capacity 2 with all I/O succeeding, two
`record` calls leave `len() = 0`, not `min 2 2 = 2` — the second call
reaches the rotation threshold and a successful rotation clears the
in-memory buffer. -/
theorem claim_C2_counterexample :
    ((MemoryField.new 2).recordAll 0 [sampleX 1, sampleX 2] ioAllOk).len = 0
    ∧ min ([sampleX 1, sampleX 2].length) 2 = 2
    ∧ ¬ ((MemoryField.new 2).recordAll 0 [sampleX 1, sampleX 2] ioAllOk).len
        = min ([sampleX 1, sampleX 2].length) 2 := by
  refine ⟨rfl, rfl, ?_⟩
  intro h
  rw [show ((MemoryField.new 2).recordAll 0 [sampleX 1, sampleX 2] ioAllOk).len
      = 0 from rfl] at h
  simp at h

/-- A `record` with a working append that stays strictly below the rotation
threshold behaves the same for every rotation outcome — the rotation branch
is never taken. -/
theorem record_noRotate_anyOutcome (m : MemoryField) (now : Nat) (v : JVal)
    (ro : RotateOutcome)
    (hlt : m.history.length + 1 ≤ m.max_snapshots)
    (hc : m.writes_since_rotation + 1 < m.max_snapshots) :
    m.record now v ⟨true, ro⟩
      = { m with
          history := m.history ++ [v]
          writes_since_rotation := m.writes_since_rotation + 1
          baseFile := some (m.baseFile.getD [] ++ [v]) } := by
  simp [MemoryField.record, MemoryField.append_snapshot,
    if_neg (by omega : ¬ m.max_snapshots < m.history.length + 1),
    if_neg (by omega : ¬ m.max_snapshots ≤ m.writes_since_rotation + 1)]

/-- A run of `record` calls strictly below the rotation threshold, for any
rotation outcome. -/
theorem recordAll_noRotate_anyOutcome (now : Nat) (ro : RotateOutcome) :
    ∀ (vs : List JVal) (m : MemoryField),
    m.writes_since_rotation + vs.length < m.max_snapshots →
    m.history.length + vs.length ≤ m.max_snapshots →
    m.recordAll now vs ⟨true, ro⟩
      = { m with
          history := m.history ++ vs
          writes_since_rotation := m.writes_since_rotation + vs.length
          baseFile := if vs.isEmpty then m.baseFile
            else some (m.baseFile.getD [] ++ vs) } := by
  intro vs
  induction vs with
  | nil =>
      intro m h1 h2
      simp [MemoryField.recordAll]
  | cons v vs' ih =>
      intro m h1 h2
      have hrw : m.recordAll now (v :: vs') ⟨true, ro⟩
          = (m.record now v ⟨true, ro⟩).recordAll now vs' ⟨true, ro⟩ := rfl
      have hlc : (v :: vs').length = vs'.length + 1 := rfl
      rw [hrw, record_noRotate_anyOutcome m now v ro (by rw [hlc] at h2; omega)
        (by rw [hlc] at h1; omega)]
      rw [ih _ (by simp; rw [hlc] at h1; omega) (by simp; rw [hlc] at h2; omega)]
      cases vs' with
      | nil => simp
      | cons w ws =>
          simp
          omega

/-- The below-threshold run lemma, specialized to the late-failing plan. -/
theorem recordAll_lateFail_no_rotate (now : Nat) (vs : List JVal) (m : MemoryField)
    (h1 : m.writes_since_rotation + vs.length < m.max_snapshots)
    (h2 : m.history.length + vs.length ≤ m.max_snapshots) :
    m.recordAll now vs ioRotateLateFails
      = { m with
          history := m.history ++ vs
          writes_since_rotation := m.writes_since_rotation + vs.length
          baseFile := if vs.isEmpty then m.baseFile
            else some (m.baseFile.getD [] ++ vs) } :=
  recordAll_noRotate_anyOutcome now RotateOutcome.lateFail vs m h1 h2

/-- A `record` that reaches the rotation threshold while rotation fails at
the final recreation of the base file: the archive is still produced by the
rename, the buffer is still cleared, the base file is left absent, the
failure is reported — and the counter is not reset. -/
theorem record_lateFail_rotates (m : MemoryField) (now : Nat) (v : JVal)
    (hlt : m.history.length + 1 ≤ m.max_snapshots)
    (hc : m.writes_since_rotation + 1 ≥ m.max_snapshots) :
    m.record now v ioRotateLateFails
      = { m with
          history := []
          writes_since_rotation := m.writes_since_rotation + 1
          baseFile := none
          archives := (archiveName m.base_path now, m.baseFile.getD [] ++ [v])
              :: m.archives
          events := MemEvent.rotateFailed :: m.events } := by
  simp [MemoryField.record, MemoryField.rotate, MemoryField.rotate_internal,
    MemoryField.append_snapshot, ioRotateLateFails,
    if_neg (by omega : ¬ m.max_snapshots < m.history.length + 1),
    if_pos (by omega : m.max_snapshots ≤ m.writes_since_rotation + 1)]

/-- Once the counter is stuck at or above the capacity under late-failing
rotation, every further `record` clears the buffer again: the history stays
empty and the counter never drops below the capacity. -/
theorem recordAll_lateFail_stuck (now : Nat) : ∀ (rest : List JVal) (m : MemoryField),
    m.history = [] → 1 ≤ m.max_snapshots →
    m.max_snapshots ≤ m.writes_since_rotation →
    ((m.recordAll now rest ioRotateLateFails).history = []
      ∧ (m.recordAll now rest ioRotateLateFails).max_snapshots
          ≤ (m.recordAll now rest ioRotateLateFails).writes_since_rotation
      ∧ (m.recordAll now rest ioRotateLateFails).max_snapshots = m.max_snapshots) := by
  intro rest
  induction rest with
  | nil =>
      intro m h1 h2 h3
      exact ⟨h1, h3, rfl⟩
  | cons v rest' ih =>
      intro m h1 h2 h3
      have hrw : m.recordAll now (v :: rest') ioRotateLateFails
          = (m.record now v ioRotateLateFails).recordAll now rest' ioRotateLateFails :=
        rfl
      rw [hrw, record_lateFail_rotates m now v (by rw [h1]; simpa using h2)
        (by omega)]
      exact ih _ rfl (show 1 ≤ m.max_snapshots from h2)
        (show m.max_snapshots ≤ m.writes_since_rotation + 1 by omega)

/-- From a fresh log of capacity `C`, a run of exactly `C` records under
late-failing rotation ends with an empty buffer and the counter stuck at or
above the capacity. -/
theorem recordAll_lateFail_first_cycle (C now : Nat) (vs : List JVal)
    (hC : 1 ≤ C) (hvs : vs.length = C) :
    ((MemoryField.new C).recordAll now vs ioRotateLateFails).history = []
    ∧ ((MemoryField.new C).recordAll now vs ioRotateLateFails).max_snapshots
        ≤ ((MemoryField.new C).recordAll now vs ioRotateLateFails).writes_since_rotation
    ∧ ((MemoryField.new C).recordAll now vs ioRotateLateFails).max_snapshots = C := by
  rcases List.eq_nil_or_concat vs with rfl | ⟨us, w, rfl⟩
  · exact absurd hvs (by simp; omega)
  · have hlen1 : us.length + 1 = C := by
      rw [List.concat_eq_append] at hvs
      simp at hvs
      omega
    have hrw : (MemoryField.new C).recordAll now (us.concat w) ioRotateLateFails
        = ((MemoryField.new C).recordAll now us ioRotateLateFails).record now w
            ioRotateLateFails := by
      simp [MemoryField.recordAll, List.concat_eq_append, List.foldl_append]
    rw [hrw, recordAll_lateFail_no_rotate now us (MemoryField.new C)
      (by simp [MemoryField.new]; omega) (by simp [MemoryField.new]; omega)]
    rw [record_lateFail_rotates _ now w (by simp [MemoryField.new]; omega)
      (by simp [MemoryField.new]; omega)]
    refine ⟨rfl, ?_, ?_⟩
    · simp [MemoryField.new]
      omega
    · simp [MemoryField.new]
      omega

/-- C2, amended: after N `record` calls on a log of capacity `C ≥ 1`, the
buffer is cleared at every C-th call whose rotation reaches the clearing
step — a successful rotation, but also one failing only at the final
recreation of the base file.  So: the claimed `len = min N C` with FIFO
retention of the last `C` snapshots holds exactly in the regime where every
triggered rotation fails before the clear (directory creation or rename);
with all I/O succeeding, `len = N mod C` with the last `N mod C` snapshots
retained in order; and under late-failing rotation `len = N` for `N < C`
and `len = 0` once `N ≥ C`, the counter never resetting. -/
theorem claim_C2_amended (vs : List JVal) (C now : Nat) (hC : 1 ≤ C) :
    (((MemoryField.new C).recordAll now vs ioRotateFails).history
        = vs.drop (vs.length - C)
      ∧ ((MemoryField.new C).recordAll now vs ioRotateFails).len = min vs.length C)
    ∧ (((MemoryField.new C).recordAll now vs ioAllOk).history
        = vs.drop (vs.length - vs.length % C)
      ∧ ((MemoryField.new C).recordAll now vs ioAllOk).len = vs.length % C)
    ∧ (vs.length < C →
        ((MemoryField.new C).recordAll now vs ioRotateLateFails).history = vs)
    ∧ (C ≤ vs.length →
        ((MemoryField.new C).recordAll now vs ioRotateLateFails).len = 0) := by
  refine ⟨?_, ?_, ?_, ?_⟩
  · obtain ⟨ha, -⟩ := recordAll_rotateFails now vs (MemoryField.new C)
    rw [foldl_evictStep _ vs _ (by simp [MemoryField.new])] at ha
    have hnorm : ((MemoryField.new C).history ++ vs).drop
        ((MemoryField.new C).history.length + vs.length
          - (MemoryField.new C).max_snapshots)
        = vs.drop (vs.length - C) := by
      simp [MemoryField.new, Nat.max_eq_left hC]
    rw [hnorm] at ha
    refine ⟨ha, ?_⟩
    simp [MemoryField.len, ha, List.length_drop]
    omega
  · obtain ⟨ha, -, -⟩ := recordAll_allOk_mod now vs (MemoryField.new C) rfl
      (by simp [MemoryField.new])
    have hnorm : ((MemoryField.new C).history ++ vs).drop
        ((MemoryField.new C).history.length + vs.length
          - ((MemoryField.new C).history.length + vs.length)
              % (MemoryField.new C).max_snapshots)
        = vs.drop (vs.length - vs.length % C) := by
      simp [MemoryField.new, Nat.max_eq_left hC]
    rw [hnorm] at ha
    refine ⟨ha, ?_⟩
    have hmod := Nat.mod_le vs.length C
    simp [MemoryField.len, ha, List.length_drop]
    omega
  · intro hN
    rw [recordAll_lateFail_no_rotate now vs (MemoryField.new C)
      (by simp [MemoryField.new]; omega) (by simp [MemoryField.new]; omega)]
    simp [MemoryField.new]
  · intro hN
    have hsplit : vs.take C ++ vs.drop C = vs := List.take_append_drop C vs
    have htake : (vs.take C).length = C := by
      rw [List.length_take]
      omega
    have hrw : (MemoryField.new C).recordAll now vs ioRotateLateFails
        = ((MemoryField.new C).recordAll now (vs.take C) ioRotateLateFails).recordAll
            now (vs.drop C) ioRotateLateFails := by
      simp only [MemoryField.recordAll]
      conv_lhs => rw [← hsplit]
      rw [List.foldl_append]
    obtain ⟨hh, hw, hm⟩ := recordAll_lateFail_first_cycle C now (vs.take C) hC htake
    obtain ⟨sh, -, -⟩ := recordAll_lateFail_stuck now (vs.drop C)
      ((MemoryField.new C).recordAll now (vs.take C) ioRotateLateFails)
      hh (by omega) (by omega)
    rw [MemoryField.len, hrw, sh]
    rfl

/-- Witness for C2 (amended): capacity 2, three records — with early-failing
rotation the buffer keeps the last two; with working I/O it keeps
`3 mod 2 = 1`; under late-failing rotation one record is retained below the
threshold and three records leave the buffer empty. -/
theorem claim_C2_witness :
    ((MemoryField.new 2).recordAll 0 [sampleX 1, sampleX 2, sampleX 3]
        ioRotateFails).history = [sampleX 2, sampleX 3]
    ∧ ((MemoryField.new 2).recordAll 0 [sampleX 1, sampleX 2, sampleX 3]
        ioAllOk).len = 1
    ∧ ((MemoryField.new 2).recordAll 0 [sampleX 1] ioRotateLateFails).history
        = [sampleX 1]
    ∧ ((MemoryField.new 2).recordAll 0 [sampleX 1, sampleX 2, sampleX 3]
        ioRotateLateFails).len = 0 :=
  ⟨((claim_C2_amended [sampleX 1, sampleX 2, sampleX 3] 2 0 (by omega)).1.1).trans rfl,
   ((claim_C2_amended [sampleX 1, sampleX 2, sampleX 3] 2 0 (by omega)).2.1.2).trans rfl,
   (claim_C2_amended [sampleX 1] 2 0 (by omega)).2.2.1 (by simp),
   (claim_C2_amended [sampleX 1, sampleX 2, sampleX 3] 2 0 (by omega)).2.2.2 (by simp)⟩

/-- A run of `record` calls with working I/O that stays strictly below the
rotation threshold: history, counter and backing file all grow by the
recorded snapshots; nothing is archived or reported. -/
theorem recordAll_allOk_no_rotate (now : Nat) : ∀ (vs : List JVal) (m : MemoryField),
    m.writes_since_rotation + vs.length < m.max_snapshots →
    m.history.length + vs.length ≤ m.max_snapshots →
    m.recordAll now vs ioAllOk
      = { m with
          history := m.history ++ vs
          writes_since_rotation := m.writes_since_rotation + vs.length
          baseFile := if vs.isEmpty then m.baseFile
            else some (m.baseFile.getD [] ++ vs) } := by
  intro vs
  induction vs with
  | nil =>
      intro m h1 h2
      simp [MemoryField.recordAll]
  | cons v vs' ih =>
      intro m h1 h2
      have hrw : m.recordAll now (v :: vs') ioAllOk
          = (m.record now v ioAllOk).recordAll now vs' ioAllOk := rfl
      have hlc : (v :: vs').length = vs'.length + 1 := rfl
      rw [hrw, record_allOk_no_rotate m now v (by rw [hlc] at h2; omega)
        (by rw [hlc] at h1; omega)]
      rw [ih _ (by simp; rw [hlc] at h1; omega) (by simp; rw [hlc] at h2; omega)]
      cases vs' with
      | nil => simp
      | cons w ws =>
          simp
          omega

/-- C3: from any just-reset log state — fresh from `new`, or exactly as a
rotation leaves it (counter 0, buffer empty, live file empty or absent) —
the capacity-th `record` call with succeeding I/O rotates: one new archive
appears under the generated name holding exactly the capacity serialized
snapshots, the buffer and the live file are empty and the counter is 0
(re-establishing the reset state, so the result covers every cycle); any
shorter run triggers no rotation — the trigger is the write count alone
(time enters only the archive's name). -/
theorem claim_C3_rotation (m : MemoryField) (now : Nat) (vs ws : List JVal)
    (hM : 1 ≤ m.max_snapshots)
    (hreset : m.writes_since_rotation = 0)
    (hhist : m.history = [])
    (hbf : m.baseFile.getD [] = [])
    (hvs : vs.length = m.max_snapshots)
    (hws : ws.length < m.max_snapshots) :
    ((m.recordAll now vs ioAllOk).archives
        = (archiveName m.base_path now, vs) :: m.archives)
    ∧ vs.length = m.max_snapshots
    ∧ (m.recordAll now vs ioAllOk).history = []
    ∧ (m.recordAll now vs ioAllOk).baseFile = some []
    ∧ (m.recordAll now vs ioAllOk).writes_since_rotation = 0
    ∧ (m.recordAll now ws ioAllOk).archives = m.archives
    ∧ (m.recordAll now ws ioAllOk).writes_since_rotation = ws.length := by
  have hshort : ∀ us : List JVal, us.length < m.max_snapshots →
      m.recordAll now us ioAllOk
        = { m with
            history := us
            writes_since_rotation := us.length
            baseFile := if us.isEmpty then m.baseFile else some us } := by
    intro us hus
    have hh0 : m.history.length = 0 := by
      rw [hhist]
      rfl
    have h := recordAll_allOk_no_rotate now us m (by omega) (by omega)
    rw [h]
    simp [hreset, hhist, hbf]
  rcases List.eq_nil_or_concat vs with rfl | ⟨us, w, rfl⟩
  · exact absurd hvs (by simp; omega)
  · have hlen1 : us.length + 1 = m.max_snapshots := by
      rw [List.concat_eq_append] at hvs
      simp at hvs
      omega
    have hus : us.length < m.max_snapshots := by omega
    have hrw : m.recordAll now (us.concat w) ioAllOk
        = (m.recordAll now us ioAllOk).record now w ioAllOk := by
      simp [MemoryField.recordAll, List.concat_eq_append, List.foldl_append]
    have hgetD : ((if us.isEmpty then m.baseFile else some us).getD []) = us := by
      cases us with
      | nil => simpa using hbf
      | cons a as => simp
    rw [hrw, hshort us hus,
      record_allOk_rotates _ now w (by simp; omega) (by simp; omega)]
    refine ⟨?_, hvs, rfl, rfl, rfl, ?_, ?_⟩
    · simp [hgetD, List.concat_eq_append]
    · rw [hshort ws hws]
    · rw [hshort ws hws]

/-- Witness for C3, exercising two full cycles: capacity 2, two records
from a fresh log give one archive of exactly the two snapshots and a reset
counter; two further records on the resulting (post-rotation) state give a
second archive of the next two snapshots and a reset counter again, while a
single record on the post-rotation state archives nothing. -/
theorem claim_C3_witness :
    ((MemoryField.new 2).recordAll 7 [sampleX 1, sampleX 2] ioAllOk).archives
        = [(archiveName "void_state.json" 7, [sampleX 1, sampleX 2])]
    ∧ ((MemoryField.new 2).recordAll 7 [sampleX 1, sampleX 2]
        ioAllOk).writes_since_rotation = 0
    ∧ (((MemoryField.new 2).recordAll 7 [sampleX 1, sampleX 2] ioAllOk).recordAll 9
          [sampleX 3, sampleX 4] ioAllOk).archives
        = [(archiveName "void_state.json" 9, [sampleX 3, sampleX 4]),
            (archiveName "void_state.json" 7, [sampleX 1, sampleX 2])]
    ∧ (((MemoryField.new 2).recordAll 7 [sampleX 1, sampleX 2] ioAllOk).recordAll 9
          [sampleX 3, sampleX 4] ioAllOk).writes_since_rotation = 0
    ∧ (((MemoryField.new 2).recordAll 7 [sampleX 1, sampleX 2] ioAllOk).recordAll 9
          [sampleX 3] ioAllOk).archives
        = [(archiveName "void_state.json" 7, [sampleX 1, sampleX 2])] := by
  obtain ⟨h1, -, -, -, h5, -, -⟩ := claim_C3_rotation (MemoryField.new 2) 7
    [sampleX 1, sampleX 2] [sampleX 1] (by decide) rfl rfl rfl rfl (by decide)
  obtain ⟨g1, -, -, -, g5, g6, -⟩ := claim_C3_rotation
    ((MemoryField.new 2).recordAll 7 [sampleX 1, sampleX 2] ioAllOk) 9
    [sampleX 3, sampleX 4] [sampleX 3] (by decide) rfl rfl rfl rfl (by decide)
  exact ⟨h1.trans rfl, h5, g1.trans rfl, g5, g6.trans rfl⟩

/-- A failing `rotate` reports the failure and leaves the counter alone,
whichever step of `rotate_internal` failed. -/
theorem rotate_fail_writes (m : MemoryField) (path : String) :
    ((m.rotate path RotateOutcome.earlyFail).writes_since_rotation
        = m.writes_since_rotation)
    ∧ ((m.rotate path RotateOutcome.lateFail).writes_since_rotation
        = m.writes_since_rotation)
    ∧ (m.rotate path RotateOutcome.earlyFail).events.head?
        = some MemEvent.rotateFailed
    ∧ (m.rotate path RotateOutcome.lateFail).events.head?
        = some MemEvent.rotateFailed := by
  cases hb : m.baseFile <;>
    simp [MemoryField.rotate, MemoryField.rotate_internal, hb]

/-- A `record` whose triggered rotation fails early: the counter still
advances by one, the capacity is unchanged, and when the call reaches the
rotation threshold the failure is the latest report. -/
theorem record_earlyFail_fields (m : MemoryField) (now : Nat) (v : JVal) (b : Bool) :
    ((m.record now v ⟨b, RotateOutcome.earlyFail⟩).writes_since_rotation
        = m.writes_since_rotation + 1)
    ∧ (m.record now v ⟨b, RotateOutcome.earlyFail⟩).max_snapshots = m.max_snapshots
    ∧ (m.writes_since_rotation + 1 ≥ m.max_snapshots →
        (m.record now v ⟨b, RotateOutcome.earlyFail⟩).events.head?
          = some MemEvent.rotateFailed) := by
  by_cases h1 : m.max_snapshots < m.history.length + 1 <;>
    by_cases h2 : m.max_snapshots ≤ m.writes_since_rotation + 1 <;>
      cases b <;>
        simp [MemoryField.record, MemoryField.rotate, MemoryField.rotate_internal,
          MemoryField.append_snapshot, h1, h2]

/-- C8: when rotation I/O fails, the failure is reported and
`writes_since_rotation` is not reset — so a `record` whose rotation failed
leaves the counter at or above the threshold and the next `record` attempts
rotation again. -/
theorem claim_C8_rotate_failure (m : MemoryField) (path : String)
    (now now2 : Nat) (v v2 : JVal) (b b2 : Bool)
    (hq : m.writes_since_rotation + 1 ≥ m.max_snapshots) :
    ((m.rotate path RotateOutcome.earlyFail).writes_since_rotation
        = m.writes_since_rotation)
    ∧ ((m.rotate path RotateOutcome.lateFail).writes_since_rotation
        = m.writes_since_rotation)
    ∧ (m.record now v ⟨b, RotateOutcome.earlyFail⟩).writes_since_rotation
        = m.writes_since_rotation + 1
    ∧ (m.record now v ⟨b, RotateOutcome.earlyFail⟩).events.head?
        = some MemEvent.rotateFailed
    ∧ ((m.record now v ⟨b, RotateOutcome.earlyFail⟩).record now2 v2
          ⟨b2, RotateOutcome.earlyFail⟩).events.head?
        = some MemEvent.rotateFailed := by
  have hf1 := record_earlyFail_fields m now v b
  have hf2 := record_earlyFail_fields (m.record now v ⟨b, RotateOutcome.earlyFail⟩)
    now2 v2 b2
  have hr := rotate_fail_writes m path
  refine ⟨hr.1, hr.2.1, hf1.1, hf1.2.2 hq, ?_⟩
  apply hf2.2.2
  rw [hf1.1, hf1.2.1]
  omega

/-- Witness for C8: a fresh log of capacity 1 whose first record's rotation
fails keeps the counter at 1 and reports the rotation failure. -/
theorem claim_C8_witness :
    ((MemoryField.new 1).record 0 JVal.jnull
        ⟨true, RotateOutcome.earlyFail⟩).writes_since_rotation = 1
    ∧ ((MemoryField.new 1).record 0 JVal.jnull
        ⟨true, RotateOutcome.earlyFail⟩).events.head?
      = some MemEvent.rotateFailed := by
  obtain ⟨-, -, h3, h4, -⟩ := claim_C8_rotate_failure (MemoryField.new 1)
    "void_state-0.json" 0 0 JVal.jnull JVal.jnull true true (by decide)
  exact ⟨h3.trans rfl, h4⟩

/-- Every single operation preserves `len ≤ capacity`. -/
theorem applyOp_len_le (m : MemoryField) (op : LogOp)
    (h : m.history.length ≤ m.max_snapshots) :
    (applyOp m op).history.length ≤ (applyOp m op).max_snapshots := by
  cases op with
  | recOp now v io =>
      rcases io with ⟨b, ro⟩
      cases ro <;> cases b <;>
        by_cases h1 : m.max_snapshots < m.history.length + 1 <;>
          by_cases h2 : m.max_snapshots ≤ m.writes_since_rotation + 1 <;>
            cases hb : m.baseFile <;>
              simp [applyOp, MemoryField.record, MemoryField.rotate,
                MemoryField.rotate_internal, MemoryField.append_snapshot,
                h1, h2, hb] <;>
                omega
  | flushOp ok =>
      cases ok <;> simp [applyOp, MemoryField.flush, h]
  | rotOp path outcome =>
      cases outcome <;> cases hb : m.baseFile <;>
        simp [applyOp, MemoryField.rotate, MemoryField.rotate_internal, hb, h]

set_option maxRecDepth 20000 in
/-- C9, counterexample: `from_file` on a 513-line file yields a log with
`len() = 513` but capacity 512 — the claimed invariant is not established
by `from_file`. -/
theorem claim_C9_counterexample :
    (MemoryField.from_file "void_state.json" (some bigFile)).map
        (fun m => (m.len, m.max_snapshots)) = some (513, 512)
    ∧ ¬ (513 ≤ 512) := by
  exact ⟨rfl, by omega⟩

/-- C9, amended: `len ≤ capacity` holds for the log produced by `new` and
is preserved by every sequence of `record`, `flush` and `rotate`
operations, for every capacity and all I/O outcomes; it is `from_file`
alone that can produce a log violating it. -/
theorem claim_C9_amended (C : Nat) (ops : List LogOp) :
    (applyOps (MemoryField.new C) ops).len
      ≤ (applyOps (MemoryField.new C) ops).max_snapshots := by
  suffices h : ∀ (rest : List LogOp) (m : MemoryField),
      m.history.length ≤ m.max_snapshots →
      (applyOps m rest).history.length ≤ (applyOps m rest).max_snapshots by
    exact h ops (MemoryField.new C) (by simp [MemoryField.new])
  intro rest
  induction rest with
  | nil => intro m hm; exact hm
  | cons op ops' ih =>
      intro m hm
      exact ih (applyOp m op) (applyOp_len_le m op hm)

set_option maxRecDepth 40000 in
/-- C10: every log `from_file` returns has capacity fixed at 512, whatever
the file or path; a 513-line file is loaded whole, `len() = 513 > 512`,
and the next `record` call (with working I/O) brings `len` back under the
capacity by rotating. -/
theorem claim_C10_from_file_capacity :
    (∀ (path : String) (file : Option (List FileLine)) (m : MemoryField),
        MemoryField.from_file path file = some m → m.max_snapshots = 512)
    ∧ (MemoryField.from_file "void_state.json" (some bigFile)).map
        (fun m => (m.len, m.max_snapshots)) = some (513, 512)
    ∧ 512 < 513
    ∧ (MemoryField.from_file "void_state.json" (some bigFile)).map
        (fun m => (m.record 0 JVal.jnull ioAllOk).len) = some 0 := by
  refine ⟨?_, rfl, by omega, rfl⟩
  intro path file m h
  unfold MemoryField.from_file at h
  obtain ⟨he, -, rfl⟩ := Option.map_eq_some'.mp h
  rfl

/-- Witness for C10: the log loaded from an empty readable file has
capacity 512. -/
theorem claim_C10_witness : emptyLoaded.max_snapshots = 512 :=
  claim_C10_from_file_capacity.1 "p" (some []) emptyLoaded rfl

end VoidEngine
